import Mathlib

/-!
Verification of the API-key authentication middleware and the Postgres
storage adapter of the Time-AI-Automations backend.

The middleware file defines three Express middleware functions:
`validateApiKey`, `trackApiUsage` and `verifyDomain`.  The storage
adapter `PgStorage` is a thin facade over a relational store.  Both are
embedded shallowly below: the database is a record of lists of rows
(list order models the default row order of the store), middleware
functions are pure functions from a request and an environment to an
outcome, and the asynchronous response-finalize hook is modelled by an
explicit finalize-function value stored in the response state.

JavaScript string operations are modelled over `String.data` (a string
as its list of characters), which matches the sequence-of-code-unit
semantics of JS strings for the inputs of interest and keeps every
definition computable.
-/

namespace TimeAI

/-- Models the JS expression `s.startsWith(p)`. -/
def jsStartsWith (s p : String) : Bool :=
  p.data.isPrefixOf s.data

/-- Models the JS expression `s.endsWith(p)`. -/
def jsEndsWith (s p : String) : Bool :=
  p.data.isSuffixOf s.data

/-- Models the JS expression `s.substring(n)` (drop the first n characters). -/
def jsSubstringFrom (s : String) (n : Nat) : String :=
  String.mk (s.data.drop n)

/-- JS truthiness of a possibly-absent string header: `undefined` and the
empty string are falsy, every other string is truthy. -/
def truthy : Option String → Bool
  | none => false
  | some s => !s.data.isEmpty

/-! ## Data model: rows of the entity tables used by the claims -/

/-- Row of the `apiKeys` table. -/
structure ApiKey where
  id : Nat
  key : String
  userId : String
  active : Bool
  lastUsed : Option Nat
deriving Repr, DecidableEq

/-- Row of the `agentIntegrations` table. -/
structure AgentIntegration where
  id : Nat
  apiKeyId : Nat
  agentId : String
  domain : String
  active : Bool
deriving Repr, DecidableEq

/-- Row of the `apiUsage` table, as inserted by `recordApiUsage`. -/
structure InsertApiUsage where
  apiKeyId : Nat
  endpoint : String
  statusCode : String
  requestPayload : Option String
deriving Repr, DecidableEq

/-- Row of the `portfolioItems` table. -/
structure PortfolioItem where
  id : Nat
  title : String
deriving Repr, DecidableEq

/-- Row of the `blogPosts` table.  `publishDate` is a timestamp. -/
structure BlogPost where
  id : Nat
  title : String
  publishDate : Nat
deriving Repr, DecidableEq

/-- Row of the `agents` table.  `updatedAt` is a timestamp. -/
structure Agent where
  agentId : String
  userId : String
  status : String
  updatedAt : Nat
deriving Repr, DecidableEq

/-- Row of the `tixaeApiEndpoints` table. -/
structure TixaeApiEndpoint where
  id : Nat
  name : String
deriving Repr, DecidableEq

/-- Row of the `tixaeAgentTemplates` table. -/
structure TixaeAgentTemplate where
  id : Nat
  name : String
deriving Repr, DecidableEq

/-- The relational store: one list of rows per entity table, in the
default row order of the store. -/
structure DB where
  portfolioItems : List PortfolioItem
  blogPosts : List BlogPost
  agents : List Agent
  apiKeys : List ApiKey
  agentIntegrations : List AgentIntegration
  apiUsage : List InsertApiUsage
  tixaeApiEndpoints : List TixaeApiEndpoint
  tixaeAgentTemplates : List TixaeAgentTemplate
deriving Repr, DecidableEq

/-- Insert an element into a list already sorted descending by `key`,
keeping the descending order (auxiliary for `orderByDesc`). -/
def insertDescBy {α : Type} (key : α → Nat) (p : α) : List α → List α
  | [] => [p]
  | q :: qs => if key q < key p then p :: q :: qs else q :: insertDescBy key p qs

/-- Models a SQL `ORDER BY key DESC` clause applied to the rows of a
table: a descending sort by `key`. -/
def orderByDesc {α : Type} (key : α → Nat) : List α → List α
  | [] => []
  | p :: ps => insertDescBy key p (orderByDesc key ps)

namespace PgStorage

/-- Models `db.select().from(portfolioItems)`. -/
def getPortfolioItems (db : DB) : List PortfolioItem :=
  db.portfolioItems

/-- Models `select().from(portfolioItems).where(eq(portfolioItems.id, id))`
followed by `items.length > 0 ? items[0] : undefined`. -/
def getPortfolioItem (db : DB) (id : Nat) : Option PortfolioItem :=
  ((db.portfolioItems.filter (fun x => x.id == id)).head?)

/-- Models `select().from(blogPosts).orderBy(desc(blogPosts.publishDate))`. -/
def getBlogPosts (db : DB) : List BlogPost :=
  orderByDesc (fun p => p.publishDate) db.blogPosts

/-- Models `select().from(blogPosts).where(eq(blogPosts.id, id))` followed
by `posts.length > 0 ? posts[0] : undefined`. -/
def getBlogPost (db : DB) (id : Nat) : Option BlogPost :=
  ((db.blogPosts.filter (fun x => x.id == id)).head?)

/-- Models `select().from(agents).where(eq(agents.agentId, agentId))`
followed by first-row-or-undefined. -/
def getAgentById (db : DB) (agentId : String) : Option Agent :=
  ((db.agents.filter (fun a => a.agentId == agentId)).head?)

/-- Models `select().from(agents).where(eq(agents.userId, userId))`. -/
def getAgentsByUserId (db : DB) (userId : String) : List Agent :=
  db.agents.filter (fun a => a.userId == userId)

/-- Models `update(agents).set({status, updatedAt: new Date()})
.where(eq(agents.agentId, agentId)).returning()` followed by
first-row-or-undefined.  `now` stands for `new Date()`. -/
def updateAgentStatus (db : DB) (agentId : String) (status : String)
    (now : Nat) : Option Agent × DB :=
  let rows := db.agents.map (fun a =>
    if a.agentId == agentId then { a with status := status, updatedAt := now } else a)
  (((rows.filter (fun a => a.agentId == agentId)).head?), { db with agents := rows })

/-- Models `select().from(apiKeys).where(eq(apiKeys.id, id))` followed by
first-row-or-undefined. -/
def getApiKeyById (db : DB) (id : Nat) : Option ApiKey :=
  ((db.apiKeys.filter (fun k => k.id == id)).head?)

/-- Models `select().from(apiKeys).where(eq(apiKeys.userId, userId))`. -/
def getApiKeysByUserId (db : DB) (userId : String) : List ApiKey :=
  db.apiKeys.filter (fun k => k.userId == userId)

/-- Models `select().from(apiKeys).where(and(eq(apiKeys.key, key),
eq(apiKeys.active, true)))` followed by first-row-or-undefined. -/
def validateApiKey (db : DB) (key : String) : Option ApiKey :=
  ((db.apiKeys.filter (fun k => k.key == key && k.active)).head?)

/-- Models `update(apiKeys).set({active: false}).where(eq(apiKeys.id, id))
.returning()` followed by first-row-or-undefined, paired with the updated
store. -/
def deactivateApiKey (db : DB) (id : Nat) : Option ApiKey × DB :=
  let rows := db.apiKeys.map (fun k =>
    if k.id == id then { k with active := false } else k)
  (((rows.filter (fun k => k.id == id)).head?), { db with apiKeys := rows })

/-- Models `update(apiKeys).set({lastUsed: new Date()})
.where(eq(apiKeys.id, id))` with no returned value. -/
def updateApiKeyLastUsed (db : DB) (id : Nat) (now : Nat) : DB :=
  { db with apiKeys := db.apiKeys.map (fun k =>
      if k.id == id then { k with lastUsed := some now } else k) }

/-- Models `select().from(agentIntegrations)
.where(eq(agentIntegrations.agentId, agentId))`. -/
def getIntegrationsByAgentId (db : DB) (agentId : String) : List AgentIntegration :=
  db.agentIntegrations.filter (fun i => i.agentId == agentId)

/-- Models `select().from(agentIntegrations)
.where(eq(agentIntegrations.apiKeyId, apiKeyId))`. -/
def getIntegrationsByApiKeyId (db : DB) (apiKeyId : Nat) : List AgentIntegration :=
  db.agentIntegrations.filter (fun i => i.apiKeyId == apiKeyId)

/-- Models `update(agentIntegrations).set({active: false, updatedAt})
.where(eq(agentIntegrations.id, id)).returning()` followed by
first-row-or-undefined.  The modelled row type has no `updatedAt` field,
so only the `active` update is visible. -/
def deactivateIntegration (db : DB) (id : Nat) : Option AgentIntegration × DB :=
  let rows := db.agentIntegrations.map (fun i =>
    if i.id == id then { i with active := false } else i)
  (((rows.filter (fun i => i.id == id)).head?), { db with agentIntegrations := rows })

/-- Models `insert(apiUsage).values(usage).returning()` with `result[0]`. -/
def recordApiUsage (db : DB) (usage : InsertApiUsage) : InsertApiUsage × DB :=
  (usage, { db with apiUsage := db.apiUsage ++ [usage] })

/-- Models `select().from(apiUsage).where(eq(apiUsage.apiKeyId, apiKeyId))`. -/
def getApiUsageByKeyId (db : DB) (apiKeyId : Nat) : List InsertApiUsage :=
  db.apiUsage.filter (fun u => u.apiKeyId == apiKeyId)

/-- Models `select().from(tixaeApiEndpoints)`. -/
def getTixaeApiEndpoints (db : DB) : List TixaeApiEndpoint :=
  db.tixaeApiEndpoints

/-- Models `select().from(tixaeApiEndpoints)
.where(eq(tixaeApiEndpoints.id, id))` followed by first-row-or-undefined. -/
def getTixaeApiEndpoint (db : DB) (id : Nat) : Option TixaeApiEndpoint :=
  ((db.tixaeApiEndpoints.filter (fun e => e.id == id)).head?)

/-- Models `select().from(tixaeApiEndpoints)
.where(eq(tixaeApiEndpoints.name, name))` followed by first-row-or-undefined. -/
def getTixaeApiEndpointByName (db : DB) (name : String) : Option TixaeApiEndpoint :=
  ((db.tixaeApiEndpoints.filter (fun e => e.name == name)).head?)

/-- Models `select().from(tixaeAgentTemplates)`. -/
def getTixaeAgentTemplates (db : DB) : List TixaeAgentTemplate :=
  db.tixaeAgentTemplates

/-- Models `select().from(tixaeAgentTemplates)
.where(eq(tixaeAgentTemplates.id, id))` followed by first-row-or-undefined. -/
def getTixaeAgentTemplate (db : DB) (id : Nat) : Option TixaeAgentTemplate :=
  ((db.tixaeAgentTemplates.filter (fun t => t.id == id)).head?)

/-- Models `select().from(tixaeAgentTemplates)
.where(eq(tixaeAgentTemplates.name, name))` followed by first-row-or-undefined. -/
def getTixaeAgentTemplateByName (db : DB) (name : String) : Option TixaeAgentTemplate :=
  ((db.tixaeAgentTemplates.filter (fun t => t.name == name)).head?)

end PgStorage

/-! ## Middleware model

A request carries the headers and request fields the middleware reads,
plus the `apiKey` property that `validateApiKey` attaches.  A middleware
outcome is either a call to `next` with the (possibly modified) request,
or an error response `res.status(s).json({error: e})`, modelled as
`respond s e`. -/

/-- The parts of an Express request the middleware reads.  `apiKey`
models the `(req as any).apiKey` property attached by `validateApiKey`. -/
structure Req where
  authorization : Option String
  origin : Option String
  referer : Option String
  path : String
  originalUrl : String
  method : String
  body : String
  apiKey : Option ApiKey
deriving Repr, DecidableEq

/-- Outcome of one middleware function: either `next` was called with
the request in its current state, or an error response
`res.status(status).json({error: error})` was sent. -/
inductive MWOut where
  | next (req : Req)
  | respond (status : Nat) (error : String)
deriving Repr, DecidableEq

/-- The storage operations the middleware awaits.  Each returns
`Except`: an `error` value models the awaited promise rejecting (the
database call throwing), caught by the catch block of the middleware. -/
structure StorageOps where
  validateApiKey : String → Except String (Option ApiKey)
  getIntegrationsByApiKeyId : Nat → Except String (List AgentIntegration)

/-- Environment of a middleware call: the storage backend and the URL
parser.  `urlHostname s` models `new URL(s).hostname`; `none` models the
URL constructor throwing on an invalid URL string. -/
structure Env where
  storage : StorageOps
  urlHostname : String → Option String

/-- The storage environment backed by `PgStorage` over store `db`
(promises resolve, never reject), together with URL parser `uh`. -/
def pgEnv (db : DB) (uh : String → Option String) : Env :=
  { storage :=
      { validateApiKey := fun k => Except.ok (PgStorage.validateApiKey db k)
        getIntegrationsByApiKeyId := fun i =>
          Except.ok (PgStorage.getIntegrationsByApiKeyId db i) }
    urlHostname := uh }

namespace Middleware

/-- Models the `validateApiKey` middleware: reject 401 when the
Authorization header is absent or does not start with the string
Bearer-plus-space (an absent header and an empty-string header are both
falsy in JS and reach the same 401 response); otherwise look the token
up, reject 403 when no active key matches, reject 500 when the storage
call throws, and otherwise attach the key and call `next`. -/
def validateApiKey (env : Env) (req : Req) : MWOut :=
  match req.authorization with
  | none => MWOut.respond 401 "Authorization header missing or invalid"
  | some authHeader =>
    if !jsStartsWith authHeader "Bearer " then
      MWOut.respond 401 "Authorization header missing or invalid"
    else
      match env.storage.validateApiKey (jsSubstringFrom authHeader 7) with
      | Except.error _ => MWOut.respond 500 "Error validating API key"
      | Except.ok none => MWOut.respond 403 "Invalid or inactive API key"
      | Except.ok (some validatedKey) =>
        MWOut.next { req with apiKey := some validatedKey }

/-- Models the domain test inside `verifyDomain`: exact match of the
configured domain against the hostname, or wildcard match when the
configured domain starts with star-dot and the hostname ends with the
configured domain minus its leading star (`substring(1)`). -/
def domainMatches (domain hostname : String) : Bool :=
  domain == hostname ||
    (jsStartsWith domain "*." && jsEndsWith hostname (jsSubstringFrom domain 1))

/-- Models the route bypass test of `verifyDomain`:
`req.path.startsWith("/api/admin") || req.path === "/api/v1/keys/verify"`. -/
def bypassPath (p : String) : Bool :=
  jsStartsWith p "/api/admin" || p == "/api/v1/keys/verify"

/-- Models `const source = origin || referer` followed by the truthiness
test `if (source)`: the result is the header string whose hostname is
compared, or `none` when both headers are falsy (in which case
`domainMatch` keeps its initial `false` and the middleware rejects). -/
def sourceOf (req : Req) : Option String :=
  match (if truthy req.origin then req.origin else req.referer) with
  | none => none
  | some s => if s.data.isEmpty then none else some s

/-- Models the `verifyDomain` middleware: skip when no key is attached
or the path is a bypass path; otherwise load the integrations of the
key (500 on a throwing storage call), reject 403 when none are
configured, parse the source header (a throwing URL constructor is
caught by the same catch block, giving 500), and reject 403 unless some
integration domain matches the hostname. -/
def verifyDomain (env : Env) (req : Req) : MWOut :=
  match req.apiKey with
  | none => MWOut.next req
  | some apiKey =>
    if bypassPath req.path then
      MWOut.next req
    else
      match env.storage.getIntegrationsByApiKeyId apiKey.id with
      | Except.error _ => MWOut.respond 500 "Error verifying domain"
      | Except.ok integrations =>
        if integrations.length == 0 then
          MWOut.respond 403 "No integrations configured for this API key"
        else
          match sourceOf req with
          | none =>
            MWOut.respond 403 "This domain is not authorized to use this API key"
          | some s =>
            match env.urlHostname s with
            | none => MWOut.respond 500 "Error verifying domain"
            | some hostname =>
              if integrations.any (fun i => domainMatches i.domain hostname) then
                MWOut.next req
              else
                MWOut.respond 403 "This domain is not authorized to use this API key"

/-- The response-finalize function stored in `res.end`.  `original` is
the finalize function of the framework; `wrapped key req orig` is the
override installed by `trackApiUsage`, which captured the attached key,
the request, and the previous value `orig` of `res.end`. -/
inductive EndFn where
  | original
  | wrapped (key : ApiKey) (req : Req) (orig : EndFn)
deriving Repr

/-- The mutable response state: the current status code, the current
value of the `res.end` property, the list of `recordApiUsage` calls
issued so far, and whether the original finalize function has run. -/
structure Res where
  statusCode : Nat
  endFn : EndFn
  records : List InsertApiUsage
  ended : Bool
deriving Repr

/-- The usage row passed to `storage.recordApiUsage` by the wrapped
finalize function. -/
def mkUsage (key : ApiKey) (req : Req) (status : Nat) : InsertApiUsage :=
  { apiKeyId := key.id
    endpoint := req.originalUrl
    statusCode := toString status
    requestPayload := if req.method == "GET" then none else some req.body }

/-- Runs one invocation of a finalize function against the response
state.  The wrapped function first restores `res.end` to the captured
original, then issues the `recordApiUsage` call, then re-invokes the
current value of `res.end` (dispatching on the state, exactly as
`return res.end(chunk, encoding, callback)` does after the
assignment). -/
def runEnd : EndFn → Res → Res
  | EndFn.original, res => { res with ended := true }
  | EndFn.wrapped key req orig, res =>
    let res1 : Res := { res with endFn := orig }
    let res2 : Res := { res1 with
      records := res1.records ++ [mkUsage key req res1.statusCode] }
    runEnd res2.endFn res2

/-- Completing the response: the framework invokes the current value of
`res.end` once. -/
def invokeEnd (res : Res) : Res :=
  runEnd res.endFn res

/-- Models the `trackApiUsage` middleware: when no key is attached it
calls `next` unchanged; otherwise it overrides `res.end` with the
wrapped finalize function capturing the key, the request and the
previous `res.end`, and calls `next`. -/
def trackApiUsage (req : Req) (res : Res) : Res × MWOut :=
  match req.apiKey with
  | none => (res, MWOut.next req)
  | some apiKey =>
    ({ res with endFn := EndFn.wrapped apiKey req res.endFn }, MWOut.next req)

/-- The status code of an error response, `none` when `next` was called. -/
def errorStatus : MWOut → Option Nat
  | MWOut.next _ => none
  | MWOut.respond s _ => some s

end Middleware

/-- The header selection in the words of the specification: the Origin
header, or, when Origin is absent, the Referer header. -/
def originOrReferer (req : Req) : Option String :=
  match req.origin with
  | some s => some s
  | none => req.referer

/-! ## Concrete fixtures used by witness and counterexample theorems -/

/-- A storage backend whose every call rejects (models the database
driver throwing on each query). -/
def throwingStorage : StorageOps :=
  { validateApiKey := fun _ => Except.error "db down"
    getIntegrationsByApiKeyId := fun _ => Except.error "db down" }

/-- An environment in which every storage call throws and every URL
string fails to parse. -/
def throwingEnv : Env :=
  { storage := throwingStorage
    urlHostname := fun _ => none }

/-- A stored API key that is active. -/
def exKey : ApiKey :=
  { id := 1, key := "tok", userId := "u1", active := true, lastUsed := none }

/-- A stored API key that is inactive. -/
def exInactiveKey : ApiKey :=
  { id := 2, key := "tok2", userId := "u1", active := false, lastUsed := some 5 }

/-- An integration registering the wildcard domain star-dot-example-dot-com
for the key with id 1. -/
def exInt : AgentIntegration :=
  { id := 1, apiKeyId := 1, agentId := "a1", domain := "*.example.com", active := true }

/-- A request with a well-formed bearer token, an Origin header and the
key record attached. -/
def exReq : Req :=
  { authorization := some "Bearer tok"
    origin := some "https://sub.example.com"
    referer := none
    path := "/api/v1/agents"
    originalUrl := "/api/v1/agents?x=1"
    method := "POST"
    body := "payload"
    apiKey := some exKey }

/-- An environment whose storage resolves every call and whose URL
parser returns the hostname sub-dot-example-dot-com. -/
def exEnv : Env :=
  { storage :=
      { validateApiKey := fun _ => Except.ok (some exKey)
        getIntegrationsByApiKeyId := fun _ => Except.ok [exInt] }
    urlHostname := fun _ => some "sub.example.com" }

/-- A small store holding two blog posts, two API keys and one
integration. -/
def exDB : DB :=
  { portfolioItems := []
    blogPosts := [⟨1, "a", 1⟩, ⟨2, "b", 2⟩]
    agents := []
    apiKeys := [exKey, exInactiveKey]
    agentIntegrations := [exInt]
    apiUsage := []
    tixaeApiEndpoints := []
    tixaeAgentTemplates := [] }

/-- A store with no active key. -/
def dbNoActive : DB :=
  { exDB with apiKeys := [exInactiveKey] }

/-- A fresh response state: status 201, the framework finalize function
installed, no usage records issued, not yet finalized. -/
def exRes : Middleware.Res :=
  { statusCode := 201, endFn := Middleware.EndFn.original, records := [], ended := false }

/-! ## Helper lemmas -/

/-- First-row-or-undefined of an equality-filtered selection is exactly
`find?` of the filter predicate. -/
theorem head?_filter {α : Type} (p : α → Bool) :
    ∀ l : List α, (l.filter p).head? = l.find? p := by
  intro l
  induction l with
  | nil => rfl
  | cons x xs ih =>
    by_cases h : p x = true
    · simp [List.filter, List.find?, h]
    · simp only [Bool.not_eq_true] at h
      simp [List.filter, List.find?, h, ih]

/-- Returning-first-row semantics of an update statement: when the
update function does not change the filtered column, the first returned
row is the first matching row with the update applied. -/
theorem update_returning {α : Type} (p : α → Bool) (f : α → α)
    (hpf : ∀ a, p (f a) = p a) (l : List α) :
    ((l.map f).filter p).head? = (l.find? p).map f := by
  have hfun : p ∘ f = p := funext hpf
  rw [List.filter_map, hfun, List.head?_map, head?_filter]

/-- Returning-first-row semantics of an update statement, with the
update function rewritten on the returned row: on a row that satisfies
the filter, the guarded per-row update equals the unguarded one. -/
theorem update_returning_found {α : Type} (p : α → Bool) (f g : α → α)
    (hpf : ∀ a, p (f a) = p a)
    (hfg : ∀ a, p a = true → f a = g a) (l : List α) :
    ((l.map f).filter p).head? = (l.find? p).map g := by
  rw [update_returning p f hpf]
  rcases hf : l.find? p with _ | x
  · rfl
  · have hp := List.find?_some hf
    simp [hfg x hp]

/-- Unfolds the JS startsWith model to the list-prefix relation. -/
theorem jsStartsWith_iff (s p : String) :
    jsStartsWith s p = true ↔ p.data <+: s.data :=
  List.isPrefixOf_iff_prefix

/-- Unfolds the JS endsWith model to the list-suffix relation. -/
theorem jsEndsWith_iff (s p : String) :
    jsEndsWith s p = true ↔ p.data <:+ s.data :=
  List.isSuffixOf_iff_suffix

/-- The domain test of `verifyDomain`, characterized in the words of the
specification: the configured domain equals the hostname, or the
configured domain is a wildcard star-dot-D and the hostname ends in
dot-D. -/
theorem domainMatches_iff (d h : String) :
    Middleware.domainMatches d h = true ↔
      d = h ∨ ∃ t : String, d = "*." ++ t ∧ ("." ++ t).data <:+ h.data := by
  unfold Middleware.domainMatches
  rw [Bool.or_eq_true, Bool.and_eq_true, beq_iff_eq, jsStartsWith_iff, jsEndsWith_iff]
  constructor
  · rintro (rfl | ⟨⟨t, ht⟩, hsfx⟩)
    · exact Or.inl rfl
    · refine Or.inr ⟨String.mk t, String.ext ?_, ?_⟩
      · rw [String.data_append, ← ht]
      · have hdrop : (jsSubstringFrom d 1).data = ("." ++ String.mk t).data := by
          show d.data.drop 1 = ("." ++ String.mk t).data
          rw [String.data_append, ← ht]
          rfl
        have heq : jsSubstringFrom d 1 = "." ++ String.mk t := String.ext hdrop
        rwa [heq] at hsfx
  · rintro (rfl | ⟨t, rfl, hsfx⟩)
    · exact Or.inl rfl
    · refine Or.inr ⟨⟨t.data, (String.data_append _ _).symm⟩, ?_⟩
      have hdrop : (jsSubstringFrom ("*." ++ t) 1).data = ("." ++ t).data := by
        show ("*." ++ t).data.drop 1 = ("." ++ t).data
        rw [String.data_append, String.data_append]
        rfl
      rwa [hdrop]



/-- When neither header is present-but-empty, the source selected by
`verifyDomain` is the Origin header, or, when Origin is absent, the
Referer header. -/
theorem sourceOf_or (req : Req) (ho : req.origin ≠ some "")
    (hr : req.referer ≠ some "") :
    Middleware.sourceOf req = originOrReferer req := by
  have hne : ∀ s : String, s ≠ "" → s.data.isEmpty = false := by
    intro s hs
    rcases hempty : s.data.isEmpty with _ | _
    · rfl
    · exact absurd (String.ext (List.isEmpty_iff.mp hempty)) hs
  unfold Middleware.sourceOf originOrReferer truthy
  rcases hor : req.origin with _ | s
  · rcases href : req.referer with _ | r
    · rfl
    · have hrne : r ≠ "" := by
        intro h
        exact hr (by rw [href, h])
      simp [hne r hrne]
  · have hsne : s ≠ "" := by
      intro h
      exact ho (by rw [hor, h])
    simp [hne s hsne]

/-- Reduction of `verifyDomain` on a request with an attached key, a
non-bypass path, and a resolving integrations query. -/
theorem verifyDomain_reduce (env : Env) (req : Req) (key : ApiKey)
    (ints : List AgentIntegration)
    (hkey : req.apiKey = some key)
    (hbp : Middleware.bypassPath req.path = false)
    (hints : env.storage.getIntegrationsByApiKeyId key.id = Except.ok ints) :
    Middleware.verifyDomain env req =
      (if ints.length == 0 then
        MWOut.respond 403 "No integrations configured for this API key"
      else
        match Middleware.sourceOf req with
        | none => MWOut.respond 403 "This domain is not authorized to use this API key"
        | some s =>
          match env.urlHostname s with
          | none => MWOut.respond 500 "Error verifying domain"
          | some hostname =>
            if ints.any (fun i => Middleware.domainMatches i.domain hostname) then
              MWOut.next req
            else
              MWOut.respond 403 "This domain is not authorized to use this API key") := by
  unfold Middleware.verifyDomain
  rw [hkey]
  simp only [hbp, Bool.false_eq_true, if_false, hints]

/-! ## Claim theorems -/

/-- Claim C2: for every request whose Authorization header is absent or
does not start with Bearer-plus-space, `validateApiKey` responds 401
with an error-string body, does not call next, and does not query
storage: the outcome is the same 401 response in every storage
environment, throwing or not. -/
theorem claim_C2_missing_auth_401 (env : Env) (req : Req)
    (h : req.authorization = none ∨
      ∃ a, req.authorization = some a ∧ jsStartsWith a "Bearer " = false) :
    Middleware.validateApiKey env req =
      MWOut.respond 401 "Authorization header missing or invalid" := by
  unfold Middleware.validateApiKey
  rcases h with h | ⟨a, ha, hb⟩
  · rw [h]
  · rw [ha]
    simp [hb]

/-- Claim C2 witness: a request without an Authorization header is
answered 401 even when every storage call would throw. -/
theorem claim_C2_witness :
    Middleware.validateApiKey throwingEnv { exReq with authorization := none } =
      MWOut.respond 401 "Authorization header missing or invalid" :=
  claim_C2_missing_auth_401 throwingEnv { exReq with authorization := none } (Or.inl rfl)

/-- Claim C5: for every request whose path starts with /api/admin or
equals /api/v1/keys/verify, `verifyDomain` calls next unconditionally,
for every storage environment and every header configuration, so no
integration query is issued and no 403 or 500 response is possible. -/
theorem claim_C5_bypass_paths (env : Env) (req : Req)
    (h : jsStartsWith req.path "/api/admin" = true ∨ req.path = "/api/v1/keys/verify") :
    Middleware.verifyDomain env req = MWOut.next req := by
  have hbp : Middleware.bypassPath req.path = true := by
    unfold Middleware.bypassPath
    rcases h with h | h
    · simp [h]
    · simp [h]
  unfold Middleware.verifyDomain
  rcases hk : req.apiKey with _ | k
  · rfl
  · simp [hbp]

/-- Claim C5 witness: a request under /api/admin proceeds even in an
environment where every storage call would throw. -/
theorem claim_C5_witness :
    Middleware.verifyDomain throwingEnv { exReq with path := "/api/admin/keys" } =
      MWOut.next { exReq with path := "/api/admin/keys" } :=
  claim_C5_bypass_paths throwingEnv { exReq with path := "/api/admin/keys" }
    (Or.inl (by decide))

/-- Claim C3: a well-formed bearer token that matches no stored active
key is answered 403 without calling next, and the storage-level lookup
returns a key record exactly when both the key string matches and the
active flag is true, returning undefined otherwise. -/
theorem claim_C3_unknown_token_403 (db : DB) (uh : String → Option String)
    (req : Req) (a : String)
    (hauth : req.authorization = some a)
    (hb : jsStartsWith a "Bearer " = true)
    (hno : ∀ k ∈ db.apiKeys, ¬(k.key = jsSubstringFrom a 7 ∧ k.active = true)) :
    Middleware.validateApiKey (pgEnv db uh) req =
        MWOut.respond 403 "Invalid or inactive API key"
    ∧ ∀ t : String,
        (∀ k, PgStorage.validateApiKey db t = some k →
          k ∈ db.apiKeys ∧ k.key = t ∧ k.active = true)
        ∧ (PgStorage.validateApiKey db t = none ↔
            ∀ k ∈ db.apiKeys, ¬(k.key = t ∧ k.active = true)) := by
  constructor
  · have hnone : PgStorage.validateApiKey db (jsSubstringFrom a 7) = none := by
      unfold PgStorage.validateApiKey
      rw [head?_filter, List.find?_eq_none]
      intro k hk
      have hknot := hno k hk
      simp only [Bool.and_eq_true, beq_iff_eq]
      intro hcontra
      exact hknot ⟨hcontra.1, hcontra.2⟩
    unfold Middleware.validateApiKey pgEnv
    rw [hauth]
    simp [hb, hnone]
  · intro t
    constructor
    · intro k hk
      unfold PgStorage.validateApiKey at hk
      rw [head?_filter] at hk
      have hmem := List.mem_of_find?_eq_some hk
      have hpred := List.find?_some hk
      rw [Bool.and_eq_true, beq_iff_eq] at hpred
      exact ⟨hmem, hpred.1, hpred.2⟩
    · unfold PgStorage.validateApiKey
      rw [head?_filter, List.find?_eq_none]
      constructor
      · intro hall k hk hcontra
        have hknot := hall k hk
        rw [Bool.and_eq_true, beq_iff_eq] at hknot
        exact hknot ⟨hcontra.1, hcontra.2⟩
      · intro hall k hk
        have hknot := hall k hk
        rw [Bool.and_eq_true, beq_iff_eq]
        intro hcontra
        exact hknot ⟨hcontra.1, hcontra.2⟩

/-- Claim C3 witness: a bearer token naming an inactive key is rejected
with 403 over a store whose only key with that string is inactive. -/
theorem claim_C3_witness :
    Middleware.validateApiKey (pgEnv dbNoActive (fun _ => none))
        { exReq with authorization := some "Bearer tok2" } =
      MWOut.respond 403 "Invalid or inactive API key" :=
  (claim_C3_unknown_token_403 dbNoActive (fun _ => none)
    { exReq with authorization := some "Bearer tok2" } "Bearer tok2"
    rfl (by decide) (by decide)).1

/-- Claim C4: a well-formed bearer token that matches an active stored
key makes `validateApiKey` attach that key record to the request and
call next, sending no error response. -/
theorem claim_C4_valid_token_next (db : DB) (uh : String → Option String)
    (req : Req) (a : String) (k : ApiKey)
    (hauth : req.authorization = some a)
    (hb : jsStartsWith a "Bearer " = true)
    (hmem : k ∈ db.apiKeys)
    (hkey : k.key = jsSubstringFrom a 7)
    (hact : k.active = true)
    (huniq : ∀ k2 ∈ db.apiKeys, k2.key = jsSubstringFrom a 7 → k2.active = true → k2 = k) :
    Middleware.validateApiKey (pgEnv db uh) req =
      MWOut.next { req with apiKey := some k } := by
  have hsome : PgStorage.validateApiKey db (jsSubstringFrom a 7) = some k := by
    have hkmem : k ∈ db.apiKeys.filter (fun x => x.key == jsSubstringFrom a 7 && x.active) :=
      List.mem_filter.mpr ⟨hmem, by simp [hkey, hact]⟩
    have hall : ∀ x ∈ db.apiKeys.filter (fun x => x.key == jsSubstringFrom a 7 && x.active),
        x = k := by
      intro x hx
      have hx2 := List.mem_filter.mp hx
      have hpred := hx2.2
      rw [Bool.and_eq_true, beq_iff_eq] at hpred
      exact huniq x hx2.1 hpred.1 hpred.2
    unfold PgStorage.validateApiKey
    rcases hl : db.apiKeys.filter (fun x => x.key == jsSubstringFrom a 7 && x.active)
      with _ | ⟨y, ys⟩
    · rw [hl] at hkmem
      cases hkmem
    · have hy : y = k := hall y (by rw [hl]; exact List.mem_cons_self y ys)
      rw [hl, hy]
      rfl
  unfold Middleware.validateApiKey pgEnv
  rw [hauth]
  simp [hb, hsome]

/-- Claim C4 witness: the active key with the stored token string is
attached and the request proceeds. -/
theorem claim_C4_witness :
    Middleware.validateApiKey (pgEnv exDB (fun _ => none)) { exReq with apiKey := none } =
      MWOut.next { exReq with apiKey := some exKey } :=
  claim_C4_valid_token_next exDB (fun _ => none) { exReq with apiKey := none }
    "Bearer tok" exKey rfl (by decide) (by decide) (by decide) rfl (by decide)

/-- Claim C8: a storage call throwing inside `validateApiKey` or
`verifyDomain` is caught and answered with a 500 response carrying a
generic error-string body, without calling next; and across the three
middleware functions the only error statuses ever produced are 401, 403
and 500 (`trackApiUsage` always calls next and never responds). -/
theorem claim_C8_storage_error_500 :
    (∀ (env : Env) (req : Req) (a e : String),
      req.authorization = some a → jsStartsWith a "Bearer " = true →
      env.storage.validateApiKey (jsSubstringFrom a 7) = Except.error e →
      Middleware.validateApiKey env req = MWOut.respond 500 "Error validating API key")
    ∧ (∀ (env : Env) (req : Req) (key : ApiKey) (e : String),
      req.apiKey = some key → Middleware.bypassPath req.path = false →
      env.storage.getIntegrationsByApiKeyId key.id = Except.error e →
      Middleware.verifyDomain env req = MWOut.respond 500 "Error verifying domain")
    ∧ (∀ (env : Env) (req : Req) (s : Nat),
      Middleware.errorStatus (Middleware.validateApiKey env req) = some s →
      s = 401 ∨ s = 403 ∨ s = 500)
    ∧ (∀ (env : Env) (req : Req) (s : Nat),
      Middleware.errorStatus (Middleware.verifyDomain env req) = some s →
      s = 401 ∨ s = 403 ∨ s = 500)
    ∧ (∀ (req : Req) (res : Middleware.Res),
      (Middleware.trackApiUsage req res).2 = MWOut.next req) := by
  refine ⟨?_, ?_, ?_, ?_, ?_⟩
  · intro env req a e ha hb he
    unfold Middleware.validateApiKey
    rw [ha]
    simp [hb, he]
  · intro env req key e hk hbp he
    unfold Middleware.verifyDomain
    rw [hk]
    simp [hbp, he]
  · intro env req s h
    unfold Middleware.validateApiKey at h
    split at h
    · simp [Middleware.errorStatus] at h
      omega
    · split at h
      · simp [Middleware.errorStatus] at h
        omega
      · split at h
        · simp [Middleware.errorStatus] at h
          omega
        · simp [Middleware.errorStatus] at h
          omega
        · simp [Middleware.errorStatus] at h
  · intro env req s h
    unfold Middleware.verifyDomain at h
    split at h
    · simp [Middleware.errorStatus] at h
    · split at h
      · simp [Middleware.errorStatus] at h
      · split at h
        · simp [Middleware.errorStatus] at h
          omega
        · split at h
          · simp [Middleware.errorStatus] at h
            omega
          · split at h
            · simp [Middleware.errorStatus] at h
              omega
            · split at h
              · simp [Middleware.errorStatus] at h
                omega
              · split at h
                · simp [Middleware.errorStatus] at h
                · simp [Middleware.errorStatus] at h
                  omega
  · intro req res
    rcases h : req.apiKey with _ | k
    · simp [Middleware.trackApiUsage, h]
    · simp [Middleware.trackApiUsage, h]

/-- Claim C8 witness: with a well-formed token and a throwing storage
backend, `validateApiKey` answers 500. -/
theorem claim_C8_witness :
    Middleware.validateApiKey throwingEnv { exReq with apiKey := none } =
      MWOut.respond 500 "Error validating API key" :=
  claim_C8_storage_error_500.1 throwingEnv { exReq with apiKey := none }
    "Bearer tok" "db down" rfl (by decide) rfl

/-- Claim C6: for every request that passed `validateApiKey` (a key is
attached) whose response completes, exactly one usage record is issued,
never zero and never two: the wrapped finalize function restores the
original finalize function before re-invoking it, so after completion
the record list has length one, the response is finalized, and the
original finalize function is back in place. -/
theorem claim_C6_exactly_one_record (req : Req) (key : ApiKey) (res : Middleware.Res)
    (hkey : req.apiKey = some key)
    (hend : res.endFn = Middleware.EndFn.original)
    (hrec : res.records = []) :
    (Middleware.invokeEnd (Middleware.trackApiUsage req res).1).records.length = 1
    ∧ (Middleware.invokeEnd (Middleware.trackApiUsage req res).1).ended = true
    ∧ (Middleware.invokeEnd (Middleware.trackApiUsage req res).1).endFn =
        Middleware.EndFn.original := by
  unfold Middleware.trackApiUsage
  rw [hkey]
  simp [Middleware.invokeEnd, Middleware.runEnd, hend, hrec]

/-- Claim C6 witness: completing the wrapped response of the concrete
request issues exactly one usage record. -/
theorem claim_C6_witness :
    (Middleware.invokeEnd (Middleware.trackApiUsage exReq exRes).1).records.length = 1
    ∧ (Middleware.invokeEnd (Middleware.trackApiUsage exReq exRes).1).ended = true
    ∧ (Middleware.invokeEnd (Middleware.trackApiUsage exReq exRes).1).endFn =
        Middleware.EndFn.original :=
  claim_C6_exactly_one_record exReq exKey exRes rfl rfl rfl

/-- Claim C7: the usage record persisted for a completed request with an
attached key has apiKeyId equal to the id of the attached key, endpoint
equal to the original URL of the request, statusCode equal to the
response status code rendered as a string, and requestPayload equal to
the request body, except null for GET requests. -/
theorem claim_C7_usage_record_fields (req : Req) (key : ApiKey) (res : Middleware.Res)
    (hkey : req.apiKey = some key)
    (hend : res.endFn = Middleware.EndFn.original)
    (hrec : res.records = []) :
    (Middleware.invokeEnd (Middleware.trackApiUsage req res).1).records =
      [{ apiKeyId := key.id
         endpoint := req.originalUrl
         statusCode := toString res.statusCode
         requestPayload := if req.method == "GET" then none else some req.body }] := by
  unfold Middleware.trackApiUsage
  rw [hkey]
  simp [Middleware.invokeEnd, Middleware.runEnd, hend, hrec, Middleware.mkUsage]

/-- Claim C7 witness: the concrete POST request records its key id,
original URL, stringified status and body. -/
theorem claim_C7_witness :
    (Middleware.invokeEnd (Middleware.trackApiUsage exReq exRes).1).records =
      [{ apiKeyId := 1
         endpoint := "/api/v1/agents?x=1"
         statusCode := "201"
         requestPayload := some "payload" }] :=
  claim_C7_usage_record_fields exReq exKey exRes rfl rfl rfl

/-- Claim C9 counterexample: `getBlogPosts` does not apply returning
rows in the default store order with at most an equality filter: on a
store whose blogPosts table holds two posts in ascending publishDate
order, it returns them reversed, which no filtered selection of the
table can produce (every filter yields a sublist in store order). -/
theorem claim_C9_counterexample :
    PgStorage.getBlogPosts exDB = [⟨2, "b", 2⟩, ⟨1, "a", 1⟩]
    ∧ exDB.blogPosts = [⟨1, "a", 1⟩, ⟨2, "b", 2⟩]
    ∧ ¬ (PgStorage.getBlogPosts exDB).Sublist exDB.blogPosts := by
  decide

/-- Claim C9 as amended: every single-entity getter and every
returning-first-row update returns the first row matching an equality
filter (or undefined when no row matches), and every list getter
applies at most an equality filter to the table in default store order,
with one exception: `getBlogPosts` additionally orders the rows by
publishDate descending. -/
theorem claim_C9_amended_equality_filters :
    (∀ (db : DB) (id : Nat),
      PgStorage.getPortfolioItem db id = db.portfolioItems.find? (fun x => x.id == id))
    ∧ (∀ (db : DB) (id : Nat),
      PgStorage.getBlogPost db id = db.blogPosts.find? (fun x => x.id == id))
    ∧ (∀ (db : DB) (a : String),
      PgStorage.getAgentById db a = db.agents.find? (fun x => x.agentId == a))
    ∧ (∀ (db : DB) (id : Nat),
      PgStorage.getApiKeyById db id = db.apiKeys.find? (fun k => k.id == id))
    ∧ (∀ (db : DB) (t : String),
      PgStorage.validateApiKey db t = db.apiKeys.find? (fun k => k.key == t && k.active))
    ∧ (∀ (db : DB) (id : Nat),
      PgStorage.getTixaeApiEndpoint db id = db.tixaeApiEndpoints.find? (fun e => e.id == id))
    ∧ (∀ (db : DB) (n : String),
      PgStorage.getTixaeApiEndpointByName db n =
        db.tixaeApiEndpoints.find? (fun e => e.name == n))
    ∧ (∀ (db : DB) (id : Nat),
      PgStorage.getTixaeAgentTemplate db id =
        db.tixaeAgentTemplates.find? (fun t => t.id == id))
    ∧ (∀ (db : DB) (n : String),
      PgStorage.getTixaeAgentTemplateByName db n =
        db.tixaeAgentTemplates.find? (fun t => t.name == n))
    ∧ (∀ (db : DB) (a st : String) (now : Nat),
      (PgStorage.updateAgentStatus db a st now).1 =
        (db.agents.find? (fun x => x.agentId == a)).map
          (fun x => { x with status := st, updatedAt := now }))
    ∧ (∀ (db : DB) (id : Nat),
      (PgStorage.deactivateApiKey db id).1 =
        (db.apiKeys.find? (fun k => k.id == id)).map (fun k => { k with active := false }))
    ∧ (∀ (db : DB) (id : Nat),
      (PgStorage.deactivateIntegration db id).1 =
        (db.agentIntegrations.find? (fun x => x.id == id)).map
          (fun x => { x with active := false }))
    ∧ (∀ (db : DB) (u : String),
      PgStorage.getAgentsByUserId db u = db.agents.filter (fun a => a.userId == u))
    ∧ (∀ (db : DB) (u : String),
      PgStorage.getApiKeysByUserId db u = db.apiKeys.filter (fun k => k.userId == u))
    ∧ (∀ (db : DB) (a : String),
      PgStorage.getIntegrationsByAgentId db a =
        db.agentIntegrations.filter (fun i => i.agentId == a))
    ∧ (∀ (db : DB) (id : Nat),
      PgStorage.getIntegrationsByApiKeyId db id =
        db.agentIntegrations.filter (fun i => i.apiKeyId == id))
    ∧ (∀ (db : DB) (id : Nat),
      PgStorage.getApiUsageByKeyId db id = db.apiUsage.filter (fun u => u.apiKeyId == id))
    ∧ (∀ db : DB, PgStorage.getPortfolioItems db = db.portfolioItems)
    ∧ (∀ db : DB, PgStorage.getTixaeApiEndpoints db = db.tixaeApiEndpoints)
    ∧ (∀ db : DB, PgStorage.getTixaeAgentTemplates db = db.tixaeAgentTemplates)
    ∧ (∀ db : DB,
      PgStorage.getBlogPosts db = orderByDesc (fun p => p.publishDate) db.blogPosts) := by
  refine ⟨fun db id => head?_filter _ _, fun db id => head?_filter _ _,
    fun db a => head?_filter _ _, fun db id => head?_filter _ _,
    fun db t => head?_filter _ _, fun db id => head?_filter _ _,
    fun db n => head?_filter _ _, fun db id => head?_filter _ _,
    fun db n => head?_filter _ _, ?_, ?_, ?_,
    fun db u => rfl, fun db u => rfl, fun db a => rfl, fun db id => rfl,
    fun db id => rfl, fun db => rfl, fun db => rfl, fun db => rfl, fun db => rfl⟩
  · intro db a st now
    exact update_returning_found (fun x => x.agentId == a)
      (fun x => if x.agentId == a then { x with status := st, updatedAt := now } else x)
      (fun x => { x with status := st, updatedAt := now })
      (by intro x; rcases h : x.agentId == a with _ | _ <;> simp [h])
      (by intro x hx; simp [hx]) db.agents
  · intro db id
    exact update_returning_found (fun k => k.id == id)
      (fun k => if k.id == id then { k with active := false } else k)
      (fun k => { k with active := false })
      (by intro k; rcases h : k.id == id with _ | _ <;> simp [h])
      (by intro k hk; simp [hk]) db.apiKeys
  · intro db id
    exact update_returning_found (fun x => x.id == id)
      (fun x => if x.id == id then { x with active := false } else x)
      (fun x => { x with active := false })
      (by intro x; rcases h : x.id == id with _ | _ <;> simp [h])
      (by intro x hx; simp [hx]) db.agentIntegrations

/-- Claim C10: deactivateApiKey sets exactly the active field of the
row with the given id to false, leaves every other field of that row
and every other row (and every other table) unchanged, returns the
updated row, and returns undefined changing nothing when no key has the
given id. -/
theorem claim_C10_deactivate_frame (db : DB) (id : Nat) :
    ((PgStorage.deactivateApiKey db id).2.portfolioItems = db.portfolioItems
      ∧ (PgStorage.deactivateApiKey db id).2.blogPosts = db.blogPosts
      ∧ (PgStorage.deactivateApiKey db id).2.agents = db.agents
      ∧ (PgStorage.deactivateApiKey db id).2.agentIntegrations = db.agentIntegrations
      ∧ (PgStorage.deactivateApiKey db id).2.apiUsage = db.apiUsage
      ∧ (PgStorage.deactivateApiKey db id).2.tixaeApiEndpoints = db.tixaeApiEndpoints
      ∧ (PgStorage.deactivateApiKey db id).2.tixaeAgentTemplates = db.tixaeAgentTemplates)
    ∧ (PgStorage.deactivateApiKey db id).2.apiKeys.length = db.apiKeys.length
    ∧ (∀ (i : Nat) (k : ApiKey), db.apiKeys[i]? = some k →
        (k.id ≠ id → (PgStorage.deactivateApiKey db id).2.apiKeys[i]? = some k)
        ∧ (k.id = id → (PgStorage.deactivateApiKey db id).2.apiKeys[i]? =
            some { k with active := false }))
    ∧ (∀ k : ApiKey, db.apiKeys.find? (fun x => x.id == id) = some k →
        (PgStorage.deactivateApiKey db id).1 = some { k with active := false })
    ∧ ((∀ k ∈ db.apiKeys, k.id ≠ id) →
        (PgStorage.deactivateApiKey db id).1 = none
        ∧ (PgStorage.deactivateApiKey db id).2 = db) := by
  have hrows : (PgStorage.deactivateApiKey db id).2.apiKeys =
      db.apiKeys.map (fun k => if k.id == id then { k with active := false } else k) := rfl
  have hret : (PgStorage.deactivateApiKey db id).1 =
      ((db.apiKeys.map (fun k => if k.id == id then { k with active := false } else k)).filter
        (fun k => k.id == id)).head? := rfl
  refine ⟨⟨rfl, rfl, rfl, rfl, rfl, rfl, rfl⟩, ?_, ?_, ?_, ?_⟩
  · rw [hrows, List.length_map]
  · intro i k hk
    constructor
    · intro hne
      rw [hrows, List.getElem?_map, hk]
      simp [beq_eq_false_iff_ne.mpr hne, hne]
    · intro heq
      rw [hrows, List.getElem?_map, hk]
      simp [beq_iff_eq.mpr heq, heq]
  · intro k hk
    have hb := List.find?_some hk
    have heq : k.id = id := beq_iff_eq.mp hb
    rw [hret, update_returning (fun x => x.id == id)
      (fun x => if x.id == id then { x with active := false } else x)
      (by intro x; rcases h : x.id == id with _ | _ <;> simp [h]) db.apiKeys, hk]
    simp [hb, heq]
  · intro hall
    have hmap : db.apiKeys.map (fun k => if k.id == id then { k with active := false } else k) =
        db.apiKeys := by
      have hcongr : ∀ k ∈ db.apiKeys,
          (if k.id == id then { k with active := false } else k) = k := by
        intro k hk
        simp [beq_eq_false_iff_ne.mpr (hall k hk)]
      calc db.apiKeys.map (fun k => if k.id == id then { k with active := false } else k)
          = db.apiKeys.map (fun k => k) := List.map_congr_left hcongr
        _ = db.apiKeys := List.map_id' db.apiKeys
    constructor
    · rw [hret, hmap, head?_filter, List.find?_eq_none]
      intro k hk
      simp [beq_eq_false_iff_ne.mpr (hall k hk)]
    · have h2 : (PgStorage.deactivateApiKey db id).2 =
          { db with apiKeys := (db.apiKeys.map
            (fun x => if x.id == id then { x with active := false } else x)) } := rfl
      rw [h2, hmap]

/-- Claim C10 witness: deactivating key id 1 in the concrete store
returns the active key with its active flag cleared and only that. -/
theorem claim_C10_witness :
    (PgStorage.deactivateApiKey exDB 1).1 = some { exKey with active := false }
    ∧ (PgStorage.deactivateApiKey exDB 1).2.blogPosts = exDB.blogPosts :=
  ⟨(claim_C10_deactivate_frame exDB 1).2.2.2.1 exKey (by decide),
   (claim_C10_deactivate_frame exDB 1).1.2.1⟩

/-- Claim C1: for every request not on a bypass path whose key has at
least one integration, `verifyDomain` calls next exactly when some
configured integration domain equals the hostname of the Origin header
(or, when Origin is absent, the Referer header), or is a wildcard
domain star-dot-D such that the hostname ends in dot-D; in particular
the wildcard star-dot-example-dot-com matches sub.example.com but
matches neither example.com itself nor evilexample.com; and in every
other case (no match, no source header, or zero configured
integrations) it responds 403.  The hypotheses require the headers to
be absent or non-empty and the present source header to parse. -/
theorem claim_C1_domain_check (env : Env) (req : Req) (key : ApiKey)
    (ints : List AgentIntegration)
    (hkey : req.apiKey = some key)
    (hbp : Middleware.bypassPath req.path = false)
    (hints : env.storage.getIntegrationsByApiKeyId key.id = Except.ok ints)
    (ho : req.origin ≠ some "") (hr : req.referer ≠ some "")
    (hparse : ∀ s, originOrReferer req = some s → (env.urlHostname s).isSome = true) :
    (Middleware.verifyDomain env req = MWOut.next req ↔
      ints ≠ [] ∧ ∃ s host, originOrReferer req = some s ∧ env.urlHostname s = some host ∧
        ∃ i ∈ ints, (i.domain = host ∨
          ∃ d : String, i.domain = "*." ++ d ∧ ("." ++ d).data <:+ host.data))
    ∧ (Middleware.verifyDomain env req ≠ MWOut.next req →
        ∃ msg, Middleware.verifyDomain env req = MWOut.respond 403 msg)
    ∧ Middleware.domainMatches "*.example.com" "sub.example.com" = true
    ∧ Middleware.domainMatches "*.example.com" "example.com" = false
    ∧ Middleware.domainMatches "*.example.com" "evilexample.com" = false := by
  have heq := verifyDomain_reduce env req key ints hkey hbp hints
  rw [sourceOf_or req ho hr] at heq
  have hdich : (Middleware.verifyDomain env req = MWOut.next req ∧
      (ints ≠ [] ∧ ∃ s host, originOrReferer req = some s ∧ env.urlHostname s = some host ∧
        ∃ i ∈ ints, (i.domain = host ∨
          ∃ d : String, i.domain = "*." ++ d ∧ ("." ++ d).data <:+ host.data)))
    ∨ ((∃ msg, Middleware.verifyDomain env req = MWOut.respond 403 msg) ∧
      ¬(ints ≠ [] ∧ ∃ s host, originOrReferer req = some s ∧ env.urlHostname s = some host ∧
        ∃ i ∈ ints, (i.domain = host ∨
          ∃ d : String, i.domain = "*." ++ d ∧ ("." ++ d).data <:+ host.data))) := by
    by_cases hnl : ints = []
    · rw [hnl] at heq
      simp only [List.length_nil, Nat.zero_eq] at heq
      refine Or.inr ⟨⟨"No integrations configured for this API key", by simpa using heq⟩, ?_⟩
      rintro ⟨hne, _⟩
      exact hne hnl
    · have hlen : (ints.length == 0) = false :=
        beq_eq_false_iff_ne.mpr (fun h => hnl (List.length_eq_zero.mp h))
      rw [hlen] at heq
      simp only [Bool.false_eq_true, if_false] at heq
      rcases hsoc : originOrReferer req with _ | s
      · rw [hsoc] at heq
        refine Or.inr ⟨⟨"This domain is not authorized to use this API key", heq⟩, ?_⟩
        rintro ⟨_, s, host, hs, _⟩
        cases hs
      · rw [hsoc] at heq
        rcases Option.isSome_iff_exists.mp (hparse s hsoc) with ⟨host, hhost⟩
        have heq2 : Middleware.verifyDomain env req =
            (match env.urlHostname s with
             | none => MWOut.respond 500 "Error verifying domain"
             | some hostname =>
               if ints.any (fun i => Middleware.domainMatches i.domain hostname) then
                 MWOut.next req
               else
                 MWOut.respond 403 "This domain is not authorized to use this API key") := heq
        rw [hhost] at heq2
        have heq3 : Middleware.verifyDomain env req =
            (if ints.any (fun i => Middleware.domainMatches i.domain host) then
              MWOut.next req
            else
              MWOut.respond 403 "This domain is not authorized to use this API key") := heq2
        rcases hany : ints.any (fun i => Middleware.domainMatches i.domain host) with _ | _
        · rw [hany] at heq3
          simp only [Bool.false_eq_true, if_false] at heq3
          refine Or.inr ⟨⟨"This domain is not authorized to use this API key", heq3⟩, ?_⟩
          rintro ⟨_, s2, host2, hs2, hh2, i, hi, hspec⟩
          cases hs2
          rw [hhost] at hh2
          cases hh2
          have hdm : Middleware.domainMatches i.domain host = true :=
            (domainMatches_iff i.domain host).mpr hspec
          have hany2 : ints.any (fun i => Middleware.domainMatches i.domain host) = true :=
            List.any_eq_true.mpr ⟨i, hi, hdm⟩
          rw [hany] at hany2
          cases hany2
        · rw [hany] at heq3
          simp only [if_true] at heq3
          rcases List.any_eq_true.mp hany with ⟨i, hi, hdm⟩
          exact Or.inl ⟨heq3, hnl, s, host, rfl, hhost, i, hi,
            (domainMatches_iff i.domain host).mp hdm⟩
  rcases hdich with ⟨h1, h2⟩ | ⟨⟨msg, hmsg⟩, hnot⟩
  · exact ⟨⟨fun _ => h2, fun _ => h1⟩, fun hne => absurd h1 hne,
      by decide, by decide, by decide⟩
  · refine ⟨⟨?_, ?_⟩, ?_, by decide, by decide, by decide⟩
    · intro h
      rw [hmsg] at h
      cases h
    · intro hR
      exact absurd hR hnot
    · intro _
      exact ⟨msg, hmsg⟩

/-- Claim C1 witness: a request from Origin https of sub.example.com
under a key configured with the wildcard integration
star-dot-example-dot-com proceeds. -/
theorem claim_C1_witness :
    Middleware.verifyDomain exEnv exReq = MWOut.next exReq := by
  have h := claim_C1_domain_check exEnv exReq exKey [exInt] rfl (by decide) rfl
    (by decide) (by decide) (fun s _ => rfl)
  exact h.1.mpr ⟨by decide, "https://sub.example.com", "sub.example.com", rfl, rfl,
    exInt, by decide, Or.inr ⟨"example.com", by decide, by decide⟩⟩

end TimeAI
